import Mathlib

/-!
Verification of the realtime session/broadcast subsystem of the mem0 REST
coordination layer: JWT authentication (`src/middleware/auth.py`), sliding-window
rate limiting (`src/middleware/rate_limit.py`), the WebSocket connection
registry and chunked streaming (`src/services/streaming.py`), the message relay
(`src/websocket/handler.py`) and the WebSocket route (`src/routes/websocket.py`).

The Python code is shallowly embedded: Python dicts become association lists
with Python's insertion-order semantics (update-in-place keeps the key's
position, fresh keys are appended), JSON values become the inductive `JVal`,
wall-clock instants become integer parameters, and `await`-based control flow
becomes explicit sequencing.  Failure points that depend on the runtime
(a broadcast raising mid-stream) are modelled by explicit failure oracles.
-/

set_option autoImplicit false

universe u v

/-- A JSON scalar value as manipulated by the Python code (`None`, `bool`,
`int`, `str`).  Nested objects are modelled where needed by dedicated
structures mirroring the fields the code actually reads. -/
inductive JVal where
  | null
  | b (v : Bool)
  | i (v : Int)
  | s (v : String)
deriving DecidableEq, Repr

/-- Python truthiness of a `JVal` (`None`, `False`, `0`, `""` are falsy). -/
def JVal.truthy : JVal → Bool
  | .null => false
  | .b v => v
  | .i v => decide (v ≠ 0)
  | .s v => decide (v ≠ "")

/-- A Python `dict` with keys `κ`, embedded as an insertion-ordered
association list (real Python dicts never hold a key twice). -/
abbrev PyDict (κ : Type u) (α : Type v) := List (κ × α)

namespace PyDict

variable {κ : Type u} {α : Type v} [DecidableEq κ]

/-- `d.get(k)` / `k in d`: first binding of the key, if any. -/
def get : PyDict κ α → κ → Option α
  | [], _ => none
  | (k1, v1) :: rest, k => if k1 = k then some v1 else get rest k

/-- `d.get(k, dflt)`. -/
def getD (d : PyDict κ α) (k : κ) (dflt : α) : α := (d.get k).getD dflt

/-- `k in d`. -/
def hasKey (d : PyDict κ α) (k : κ) : Bool := (d.get k).isSome

/-- `d[k] = v`: replaces the value in place if the key exists (keeping its
position, as Python dicts do), otherwise appends the new binding. -/
def set : PyDict κ α → κ → α → PyDict κ α
  | [], k, v => [(k, v)]
  | (k1, v1) :: rest, k, v =>
    if k1 = k then (k, v) :: rest else (k1, v1) :: set rest k v

/-- `del d[k]`. -/
def remove : PyDict κ α → κ → PyDict κ α
  | [], _ => []
  | (k1, v1) :: rest, k =>
    if k1 = k then remove rest k else (k1, v1) :: remove rest k

/-- `d.update(u)`: bindings of `u` applied left to right. -/
def update (d : PyDict κ α) : PyDict κ α → PyDict κ α
  | [] => d
  | (k, v) :: rest => update (d.set k v) rest

/-- `list(d.keys())`. -/
def keys (d : PyDict κ α) : List κ := d.map Prod.fst

end PyDict

section PyDictLemmas

variable {κ : Type u} {α : Type v} [DecidableEq κ]

theorem PyDict.get_set_self (d : PyDict κ α) (k : κ) (v : α) :
    (d.set k v).get k = some v := by
  induction d with
  | nil => simp [PyDict.set, PyDict.get]
  | cons hd tl ih =>
    obtain ⟨k1, v1⟩ := hd
    by_cases h : k1 = k <;> simp [PyDict.set, PyDict.get, h, ih]

theorem PyDict.get_set_other (d : PyDict κ α) (k k1 : κ) (v : α) (h : k1 ≠ k) :
    (d.set k v).get k1 = d.get k1 := by
  have hne : ¬ (k = k1) := fun h1 => h h1.symm
  induction d with
  | nil => simp [PyDict.set, PyDict.get, hne]
  | cons hd tl ih =>
    obtain ⟨k2, v2⟩ := hd
    by_cases h2 : k2 = k
    · subst h2
      simp [PyDict.set, PyDict.get, hne]
    · by_cases h3 : k2 = k1 <;> simp [PyDict.set, PyDict.get, h2, h3, ih, h]

theorem PyDict.get_remove_self (d : PyDict κ α) (k : κ) :
    (d.remove k).get k = none := by
  induction d with
  | nil => simp [PyDict.remove, PyDict.get]
  | cons hd tl ih =>
    obtain ⟨k1, v1⟩ := hd
    by_cases h : k1 = k <;> simp [PyDict.remove, PyDict.get, h, ih]

theorem PyDict.get_append (d e : PyDict κ α) (k : κ) :
    PyDict.get (d ++ e) k =
      match d.get k with
      | some v => some v
      | none => e.get k := by
  induction d with
  | nil => rfl
  | cons hd tl ih =>
    obtain ⟨k1, v1⟩ := hd
    by_cases h : k1 = k <;> simp [PyDict.get, h]
    · exact ih

theorem PyDict.set_eq_append (d : PyDict κ α) (k : κ) (v : α)
    (h : d.get k = none) : d.set k v = d ++ [(k, v)] := by
  induction d with
  | nil => simp [PyDict.set]
  | cons hd tl ih =>
    obtain ⟨k1, v1⟩ := hd
    by_cases h1 : k1 = k
    · simp [PyDict.get, h1] at h
    · simp [PyDict.get, h1] at h
      simp [PyDict.set, h1, ih h]

/-- Updating with fresh, pairwise-distinct keys appends the new bindings. -/
theorem PyDict.update_disjoint (u : PyDict κ α) :
    ∀ d : PyDict κ α, (∀ k ∈ PyDict.keys u, d.get k = none) →
      (PyDict.keys u).Nodup → d.update u = d ++ u := by
  induction u with
  | nil => intro d _ _; simp [PyDict.update]
  | cons hd tl ih =>
    obtain ⟨k, v⟩ := hd
    intro d hfresh hnodup
    have hk : d.get k = none := hfresh k (by simp [PyDict.keys])
    have hnodup1 : (PyDict.keys tl).Nodup ∧ k ∉ PyDict.keys tl := by
      simp only [PyDict.keys, List.map_cons, List.nodup_cons] at hnodup
      exact ⟨hnodup.2, hnodup.1⟩
    have hstep : d.set k v = d ++ [(k, v)] := PyDict.set_eq_append d k v hk
    have hfresh2 : ∀ k1 ∈ PyDict.keys tl, PyDict.get (d ++ [(k, v)]) k1 = none := by
      intro k1 hk1
      rw [PyDict.get_append]
      have h1 : d.get k1 = none := by
        refine hfresh k1 ?_
        simp only [PyDict.keys, List.map_cons, List.mem_cons]
        exact Or.inr hk1
      have h2 : ¬ (k = k1) := fun h => hnodup1.2 (h ▸ hk1)
      simp [h1, PyDict.get, h2]
    have hrec := ih (d ++ [(k, v)]) hfresh2 hnodup1.1
    simp only [PyDict.update, hstep, hrec, List.append_assoc, List.singleton_append]

end PyDictLemmas

/-! ## Authentication (`src/middleware/auth.py`)

A signed JWT is embedded as its decoded payload together with the key it was
signed with; `jwt.decode` succeeds exactly when the verification key matches
and, if an (integer) `exp` claim is present, it lies strictly in the future
(PyJWT raises `ExpiredSignatureError` when `exp <= now`). -/

/-- The authentication failure taxonomy of `auth.py`: every branch raises
`HTTPException(status_code=401, ...)` with a distinguishing detail string. -/
inductive AuthError where
  | expired
  | invalidToken
  | invalidTokenType
  | missingToken
deriving DecidableEq, Repr

/-- The HTTP status carried by each `AuthError` (all branches raise 401). -/
def AuthError.statusCode : AuthError → Nat
  | .expired => 401
  | .invalidToken => 401
  | .invalidTokenType => 401
  | .missingToken => 401

/-- A signed token: the claims payload plus the signing key. -/
structure Token where
  payload : PyDict String JVal
  key : String
deriving DecidableEq, Repr

/-- The process-wide auth configuration (`settings.jwt_secret` and the two
expiry durations, both converted to seconds). -/
structure AuthConfig where
  jwt_secret : String
  access_expire : Int
  refresh_expire : Int
deriving DecidableEq, Repr

/-- The authenticated identity returned by `get_current_user` /
`get_websocket_user`: the raw `user_id` claim and the raw
`is_admin` claim (defaulting to `False`). -/
structure Identity where
  id : JVal
  is_admin : JVal
deriving DecidableEq, Repr

namespace AuthHandler

/-- `AuthHandler.create_access_token`: base claims
`user_id`/`exp`/`type="access"` updated with the additional claims. -/
def create_access_token (cfg : AuthConfig) (now : Int) (user_id : JVal)
    (additional_claims : PyDict String JVal) : Token :=
  ⟨PyDict.update
      [("user_id", user_id), ("exp", .i (now + cfg.access_expire)),
       ("type", .s "access")]
      additional_claims,
   cfg.jwt_secret⟩

/-- `AuthHandler.create_refresh_token`: same with `type="refresh"` and the
refresh expiry. -/
def create_refresh_token (cfg : AuthConfig) (now : Int) (user_id : JVal)
    (additional_claims : PyDict String JVal) : Token :=
  ⟨PyDict.update
      [("user_id", user_id), ("exp", .i (now + cfg.refresh_expire)),
       ("type", .s "refresh")]
      additional_claims,
   cfg.jwt_secret⟩

/-- `AuthHandler.decode_token`: `jwt.decode` (signature, then `exp` claim),
then the handler's own check that `type` is `access` or `refresh`. -/
def decode_token (cfg : AuthConfig) (now : Int) (tok : Token) :
    Except AuthError (PyDict String JVal) :=
  if tok.key ≠ cfg.jwt_secret then .error .invalidToken
  else
    match tok.payload.get "exp" with
    | some (.i e) =>
      if e ≤ now then .error .expired
      else
        if tok.payload.getD "type" .null = .s "access"
            ∨ tok.payload.getD "type" .null = .s "refresh" then
          .ok tok.payload
        else .error .invalidTokenType
    | some _ => .error .invalidToken
    | none =>
      if tok.payload.getD "type" .null = .s "access"
          ∨ tok.payload.getD "type" .null = .s "refresh" then
        .ok tok.payload
      else .error .invalidTokenType

/-- `AuthHandler.get_current_user` (the HTTP authentication dependency):
decode, require `type == "access"`, and surface the embedded identity. -/
def get_current_user (cfg : AuthConfig) (now : Int) (tok : Token) :
    Except AuthError Identity :=
  match decode_token cfg now tok with
  | .error e => .error e
  | .ok payload =>
    if payload.getD "type" .null ≠ .s "access" then .error .invalidTokenType
    else .ok ⟨payload.getD "user_id" .null, payload.getD "is_admin" (.b false)⟩

/-- `AuthHandler.get_websocket_user`: the token comes from the connection's
query parameters; its absence is itself an authentication failure. -/
def get_websocket_user (cfg : AuthConfig) (now : Int) (queryToken : Option Token) :
    Except AuthError Identity :=
  match queryToken with
  | none => .error .missingToken
  | some tok =>
    match decode_token cfg now tok with
    | .error e => .error e
    | .ok payload =>
      if payload.getD "type" .null ≠ .s "access" then .error .invalidTokenType
      else .ok ⟨payload.getD "user_id" .null, payload.getD "is_admin" (.b false)⟩

/-- The extra claims of a payload: everything except `user_id`, `exp`, `type`
(the dict comprehension inside `refresh_tokens`). -/
def extraClaims (p : PyDict String JVal) : PyDict String JVal :=
  p.filter (fun kv => decide (kv.1 ≠ "user_id" ∧ kv.1 ≠ "exp" ∧ kv.1 ≠ "type"))

/-- The token pair returned by `refresh_tokens`. -/
structure TokenPair where
  access_token : Token
  refresh_token : Token
deriving DecidableEq, Repr

/-- `AuthHandler.refresh_tokens`: decode, require `type == "refresh"`, and
re-issue a fresh access+refresh pair carrying the extra claims forward. -/
def refresh_tokens (cfg : AuthConfig) (now : Int) (tok : Token) :
    Except AuthError TokenPair :=
  match decode_token cfg now tok with
  | .error e => .error e
  | .ok payload =>
    if payload.getD "type" .null ≠ .s "refresh" then .error .invalidTokenType
    else
      let user_id := payload.getD "user_id" .null
      let additional_claims := extraClaims payload
      .ok ⟨create_access_token cfg now user_id additional_claims,
           create_refresh_token cfg now user_id additional_claims⟩

end AuthHandler

/-! ## Rate limiting (`src/middleware/rate_limit.py`)

Per-client sliding windows: a dict from client identity to the list of
timestamps of admitted requests.  The client identity is
`user_id or request.client.host` (Python `or`, i.e. truthiness), so it is a
JSON value; timestamps are integers (seconds). -/

/-- The mutable state of the global `RateLimiter` instance, together with its
configured limits (set in `__init__`: 100 requests/min HTTP, 50 messages/min
WebSocket, 60-second window). -/
structure RateLimiter where
  requests : PyDict JVal (List Int)
  ws_messages : PyDict JVal (List Int)
  http_rate_limit : Nat
  ws_rate_limit : Nat
  window : Int
deriving DecidableEq, Repr

namespace RateLimiter

/-- A freshly constructed `RateLimiter()`. -/
def init : RateLimiter := ⟨[], [], 100, 50, 60⟩

/-- The pruning step shared by both checks: keep the timestamps `ts` with
`now - ts < timedelta(seconds=window)`. -/
def pruneWindow (window now : Int) (l : List Int) : List Int :=
  l.filter (fun ts => decide (now - ts < window))

/-- `RateLimiter.check_http_rate_limit`.  Returns the raised HTTP status
(`some 400`/`some 429`) or `none` for admission, together with the state
afterwards; note that the pruned list is written back to the dict before the
429 is raised, so a denied check still prunes but never appends. -/
def check_http_rate_limit (rl : RateLimiter) (user_id host : JVal) (now : Int) :
    Option Nat × RateLimiter :=
  let client_id := if user_id.truthy then user_id else host
  if ¬ client_id.truthy then (some 400, rl)
  else
    let pruned := pruneWindow rl.window now (rl.requests.getD client_id [])
    if rl.http_rate_limit ≤ pruned.length then
      (some 429, { rl with requests := rl.requests.set client_id pruned })
    else
      (none, { rl with requests := rl.requests.set client_id (pruned ++ [now]) })

/-- `RateLimiter.check_ws_rate_limit`: same sliding window over the
independent `ws_messages` dict, but a denial returns `False` instead of
raising (and a missing identity returns `False` without touching state). -/
def check_ws_rate_limit (rl : RateLimiter) (user_id host : JVal) (now : Int) :
    Bool × RateLimiter :=
  let client_id := if user_id.truthy then user_id else host
  if ¬ client_id.truthy then (false, rl)
  else
    let pruned := pruneWindow rl.window now (rl.ws_messages.getD client_id [])
    if rl.ws_rate_limit ≤ pruned.length then
      (false, { rl with ws_messages := rl.ws_messages.set client_id pruned })
    else
      (true, { rl with ws_messages := rl.ws_messages.set client_id (pruned ++ [now]) })

end RateLimiter

/-! ## Connection registry and streaming (`src/services/streaming.py`)

`StreamingService.active_connections` maps `user_id` (the raw `id` claim, a
JSON value) to a dict from `session_id` (a path parameter, a string) to the
live WebSocket.  The WebSocket object itself is an opaque type `α`; where
sending can fail, the failure is an oracle `α → Bool`. -/

/-- `StreamingService.active_connections`. -/
abbrev ConnMap (α : Type u) := PyDict JVal (PyDict String α)

namespace StreamingService

variable {α : Type u}

/-- The registration step of `StreamingService.connect` (after the channel
accept succeeded): last-write-wins under the `(user_id, session_id)` key. -/
def connect (conns : ConnMap α) (user_id : JVal) (session_id : String)
    (websocket : α) : ConnMap α :=
  conns.set user_id ((conns.getD user_id []).set session_id websocket)

/-- `StreamingService.disconnect`: remove the session's entry if present, and
drop the whole user bucket once it is empty.  Total — no failure path. -/
def disconnect (conns : ConnMap α) (user_id : JVal) (session_id : String) :
    ConnMap α :=
  match conns.get user_id with
  | none => conns
  | some bucket =>
    if bucket.hasKey session_id then
      let bucket2 := bucket.remove session_id
      if bucket2.isEmpty then conns.remove user_id
      else conns.set user_id bucket2
    else conns

/-- Whether the loop in `broadcast_to_user` skips a session:
`if exclude and session_id == exclude` (Python truthiness of the `exclude`
string, then equality). -/
def skipSession (exclude : Option String) (session_id : String) : Bool :=
  match exclude with
  | none => false
  | some e => decide (e ≠ "") && decide (session_id = e)

/-- The observable outcome of one `broadcast_to_user` call: the sessions to
which a send was attempted (in dict iteration order) and the per-connection
error logs emitted for the sends that failed. -/
structure BroadcastTrace where
  attempts : List String
  errorsLogged : List String
deriving DecidableEq, Repr

/-- The `for session_id, websocket in ...items()` loop of `broadcast_to_user`:
each failed send is caught and logged, and the loop always proceeds to the
next connection. -/
def broadcastLoop (exclude : Option String) (sendFails : α → Bool) :
    PyDict String α → BroadcastTrace
  | [] => ⟨[], []⟩
  | (session_id, websocket) :: rest =>
    let r := broadcastLoop exclude sendFails rest
    if skipSession exclude session_id then r
    else if sendFails websocket then
      ⟨session_id :: r.attempts, session_id :: r.errorsLogged⟩
    else ⟨session_id :: r.attempts, r.errorsLogged⟩

/-- `StreamingService.broadcast_to_user`.  The registry is only read, never
written (the function's Python body contains no assignment to
`active_connections`); with no registered connections it returns before
building the message.  `message_type` and `data` only shape the JSON sent, not
the trace observed here. -/
def broadcast_to_user (conns : ConnMap α) (user_id : JVal)
    (exclude : Option String) (sendFails : α → Bool) : BroadcastTrace :=
  match conns.get user_id with
  | none => ⟨[], []⟩
  | some bucket => broadcastLoop exclude sendFails bucket

end StreamingService

/-! ### Chunked streaming (`stream_memory_chunks`) -/

/-- The metadata dict of a chunk envelope: either the normal shape
(`chunk_number`, `total_chunks`, `session_id`, timestamp) or the error shape
(`session_id`, `error: True`, timestamp).  Wall-clock timestamps are omitted
from the embedding. -/
inductive ChunkMeta where
  | chunk (chunk_number total_chunks : Nat) (session_id : String)
  | err (session_id : String)
deriving DecidableEq, Repr

/-- A `chunk_data` / `error_data` dict yielded by `stream_memory_chunks`. -/
structure ChunkEnvelope where
  id : String
  content : String
  type : String
  done : Bool
  metadata : ChunkMeta
deriving DecidableEq, Repr

/-- A call to `broadcast_to_user` made by the stream:
`(user_id, message_type, data)`. -/
abbrev BroadcastCall := String × String × ChunkEnvelope

/-- Where an in-loop failure strikes while handling chunk `idx`:
inside the broadcast of the chunk (before it is yielded), or after the chunk
was yielded (e.g. in the inter-chunk pause).  `msg` is `str(e)`. -/
inductive FailPhase where
  | duringBroadcast
  | afterYield
deriving DecidableEq, Repr

/-- A failure oracle for one run of the stream generator. -/
structure StreamFailure where
  idx : Nat
  phase : FailPhase
  msg : String
deriving DecidableEq, Repr

/-- What one run of the generator produces: the envelopes yielded to the
direct caller, and the broadcast calls made. -/
structure StreamRun where
  yielded : List ChunkEnvelope
  broadcasts : List BroadcastCall
deriving DecidableEq, Repr

namespace StreamingService

/-- Python slice `content[i:i+n]`. -/
def pySlice (content : String) (i n : Nat) : String :=
  (((content.toList).drop i).take n).asString

/-- The chunk list `[content[i:i+size] for i in range(0, len(content), size)]`
for a nonzero `size` (`range` has `(len + size - 1) / size` elements). -/
def contentChunks (content : String) (size : Nat) : List String :=
  (List.range ((content.length + size - 1) / size)).map
    (fun j => pySlice content (j * size) size)

/-- The `chunk_data` dict built for the chunk at 0-based index `j`. -/
def mkChunkEnvelope (session_id : String) (j total : Nat) (c : String) :
    ChunkEnvelope :=
  { id := session_id ++ "_" ++ toString j
    content := c
    type := "memory_chunk"
    done := decide (j = total - 1)
    metadata := .chunk (j + 1) total session_id }

/-- The `error_data` dict built by the `except` branch. -/
def mkErrorEnvelope (session_id msg : String) : ChunkEnvelope :=
  { id := session_id ++ "_error"
    content := msg
    type := "error"
    done := true
    metadata := .err session_id }

/-- The `for i, chunk in enumerate(chunks)` loop: broadcast the chunk, yield
it, pause.  A failure at the oracle's index diverts to the `except` branch,
which broadcasts and yields one error envelope and ends the generator. -/
def streamLoop (user_id session_id : String) (total : Nat)
    (failAt : Option StreamFailure) : Nat → List String → StreamRun
  | _, [] => ⟨[], []⟩
  | j, c :: rest =>
    let env := mkChunkEnvelope session_id j total c
    match failAt with
    | some f =>
      if f.idx = j then
        let errEnv := mkErrorEnvelope session_id f.msg
        match f.phase with
        | .duringBroadcast =>
          ⟨[errEnv], [(user_id, "memory_error", errEnv)]⟩
        | .afterYield =>
          ⟨[env, errEnv],
           [(user_id, "memory_chunk", env), (user_id, "memory_error", errEnv)]⟩
      else
        let r := streamLoop user_id session_id total failAt (j + 1) rest
        ⟨env :: r.yielded, (user_id, "memory_chunk", env) :: r.broadcasts⟩
    | none =>
      let r := streamLoop user_id session_id total none (j + 1) rest
      ⟨env :: r.yielded, (user_id, "memory_chunk", env) :: r.broadcasts⟩

/-- `StreamingService.stream_memory_chunks`.  With `chunk_size = 0` the chunk
list comprehension itself raises (`range() arg 3 must not be zero`), which the
`except` branch turns into a single error envelope on both paths. -/
def stream_memory_chunks (user_id session_id content : String)
    (chunk_size : Nat) (failAt : Option StreamFailure) : StreamRun :=
  if chunk_size = 0 then
    let errEnv := mkErrorEnvelope session_id "range() arg 3 must not be zero"
    ⟨[errEnv], [(user_id, "memory_error", errEnv)]⟩
  else
    let chunks := contentChunks content chunk_size
    streamLoop user_id session_id chunks.length failAt 0 chunks

end StreamingService

/-! ## Message relay (`src/websocket/handler.py` and
`StreamingService.stream_memory_updates`)

An inbound WebSocket frame is `json.loads`-parsed and then only its `type`,
`data` and `timestamp` fields are read; the embedding models a message by
exactly those three fields (`type = JVal.null` for a missing tag, `data = none`
for a missing `data` object). -/

/-- A parsed inbound WebSocket message, seen through the fields the code
reads: `message.get("type")`, `message.get("data", {})`,
`message.get("timestamp")`. -/
structure WsMessage where
  type : JVal
  data : Option (PyDict String JVal)
  timestamp : JVal
deriving DecidableEq, Repr

/-- An outbound JSON payload sent back on the handling connection.  The two
pong shapes differ: `handle_ping` nests the timestamp under `data`, while
`stream_memory_updates` puts it at top level. -/
inductive OutMsg where
  | connectionEstablished (user_id : JVal) (session_id : String)
  | ack (timestamp : String)
  | pongData (timestamp : JVal)
  | pongTop (timestamp : JVal)
deriving DecidableEq, Repr

/-- An observable action of one relay-loop iteration. -/
inductive RelayEvent where
  | broadcastCall (message_type : String) (data : PyDict String JVal)
      (exclude : Option String)
  | send (payload : OutMsg)
  | logWarning (message_type : JVal)
deriving DecidableEq, Repr

namespace WebSocketHandler

/-- One iteration of `WebSocketHandler.handle_messages`: `memory_update` →
broadcast to the user's other sessions then ack with a fresh timestamp;
`ping` → `handle_ping`, whose reply carries `timestamp or now` (Python `or`:
a falsy sender timestamp is replaced by the current time); any other tag →
`log_warning` and continue. -/
def handleOneMessage (nowTs : String) (session_id : String) (m : WsMessage) :
    List RelayEvent :=
  if m.type = .s "memory_update" then
    [.broadcastCall "memory_update" (m.data.getD []) (some session_id),
     .send (.ack nowTs)]
  else if m.type = .s "ping" then
    [.send (.pongData (if m.timestamp.truthy then m.timestamp else .s nowTs))]
  else
    [.logWarning m.type]

/-- The `while True` receive loop of `handle_messages`, run over the finite
sequence of frames the peer delivers before closing. -/
def handle_messages (nowTs : String) (session_id : String)
    (msgs : List WsMessage) : List RelayEvent :=
  msgs.flatMap (handleOneMessage nowTs session_id)

/-- One iteration of `StreamingService.stream_memory_updates`: same
`memory_update` handling, but the pong echoes `message.get("timestamp")`
verbatim at top level, and an unknown tag falls through both `if` branches —
no log, no reply. -/
def streamOneMessage (nowTs : String) (session_id : String) (m : WsMessage) :
    List RelayEvent :=
  if m.type = .s "memory_update" then
    [.broadcastCall "memory_update" (m.data.getD []) (some session_id),
     .send (.ack nowTs)]
  else if m.type = .s "ping" then
    [.send (.pongTop m.timestamp)]
  else
    []

/-- The receive loop of `stream_memory_updates`. -/
def stream_memory_updates (nowTs : String) (session_id : String)
    (msgs : List WsMessage) : List RelayEvent :=
  msgs.flatMap (streamOneMessage nowTs session_id)

end WebSocketHandler

/-! ## The `/ws/memory/{session_id}` endpoint (`src/routes/websocket.py`) -/

/-- How the endpoint's control flow ended: close(1008) on a rate-limit denial,
close(1011) from the outer `except` (e.g. an authentication failure), or a
normal run handed to `handle_connection`. -/
inductive WsClose where
  | policyViolation
  | internalError
  | normal
deriving DecidableEq, Repr

/-- Everything observable about one execution of `memory_websocket`: the final
registry and limiter states, every `(user_id, session_id)` registration the
execution ever performed, the messages sent/broadcast, and how it closed. -/
structure WsEndpointRun (α : Type u) where
  conns : ConnMap α
  limiter : RateLimiter
  connectsMade : List (JVal × String)
  events : List RelayEvent
  close : WsClose
deriving Repr

/-- `memory_websocket`: authenticate from the query token, check the
WebSocket rate limit, then `ws_handler.handle_connection` — accept+register,
send `connection_established`, relay messages, and disconnect in a `finally`.
An `HTTPException` from authentication is caught by the route's outer
`except Exception` before any accept or registration. -/
def memory_websocket {α : Type u} (cfg : AuthConfig) (now : Int) (nowTs : String)
    (rl : RateLimiter) (conns : ConnMap α) (websocket : α) (host : JVal)
    (session_id : String) (queryToken : Option Token) (msgs : List WsMessage) :
    WsEndpointRun α :=
  match AuthHandler.get_websocket_user cfg now queryToken with
  | .error _ => ⟨conns, rl, [], [], .internalError⟩
  | .ok user =>
    let checked := RateLimiter.check_ws_rate_limit rl user.id host now
    if ¬ checked.1 then ⟨conns, checked.2, [], [], .policyViolation⟩
    else
      let conns2 := StreamingService.connect conns user.id session_id websocket
      let events := RelayEvent.send (.connectionEstablished user.id session_id)
        :: WebSocketHandler.handle_messages nowTs session_id msgs
      ⟨StreamingService.disconnect conns2 user.id session_id, checked.2,
       [(user.id, session_id)], events, .normal⟩

/-! ## Claims -/

/-- C2: every valid un-expired token is authenticated by `get_current_user`
according to its `type` claim: an access token yields the embedded `user_id`
and `is_admin` claims, while a refresh token is rejected with the
`Invalid token type` 401 before any identity is returned. -/
theorem authenticate_http_access_vs_refresh (cfg : AuthConfig) (tok : Token)
    (now e : Int)
    (hkey : tok.key = cfg.jwt_secret)
    (hexp : tok.payload.get "exp" = some (.i e))
    (hfresh : now < e) :
    (tok.payload.getD "type" .null = .s "access" →
      AuthHandler.get_current_user cfg now tok =
        .ok ⟨tok.payload.getD "user_id" .null,
             tok.payload.getD "is_admin" (.b false)⟩)
    ∧ (tok.payload.getD "type" .null = .s "refresh" →
      AuthHandler.get_current_user cfg now tok = .error .invalidTokenType
        ∧ AuthError.invalidTokenType.statusCode = 401) := by
  have hnle : ¬ (e ≤ now) := not_le.mpr hfresh
  constructor
  · intro ht
    simp [AuthHandler.get_current_user, AuthHandler.decode_token, hkey, hexp,
      hnle, ht]
  · intro ht
    refine ⟨?_, rfl⟩
    simp [AuthHandler.get_current_user, AuthHandler.decode_token, hkey, hexp,
      hnle, ht]

/-- Witness for C2 at a concrete access token and a concrete refresh token. -/
theorem authenticate_http_access_vs_refresh_witness :
    (50 : Int) < 100 ∧
    AuthHandler.get_current_user ⟨"k", 900, 3600⟩ 50
      ⟨[("user_id", .s "u1"), ("exp", .i 100), ("type", .s "access"),
        ("is_admin", .b true)], "k"⟩ = .ok ⟨.s "u1", .b true⟩ ∧
    AuthHandler.get_current_user ⟨"k", 900, 3600⟩ 50
      ⟨[("user_id", .s "u1"), ("exp", .i 100), ("type", .s "refresh")], "k"⟩
      = .error .invalidTokenType :=
  ⟨by decide,
   (authenticate_http_access_vs_refresh ⟨"k", 900, 3600⟩
      ⟨[("user_id", .s "u1"), ("exp", .i 100), ("type", .s "access"),
        ("is_admin", .b true)], "k"⟩ 50 100 rfl (by decide) (by decide)).1
     (by decide),
   ((authenticate_http_access_vs_refresh ⟨"k", 900, 3600⟩
      ⟨[("user_id", .s "u1"), ("exp", .i 100), ("type", .s "refresh")], "k"⟩
      50 100 rfl (by decide) (by decide)).2 (by decide)).1⟩

theorem AuthHandler.extraClaims_get (p : PyDict String JVal) (k : String)
    (h1 : k ≠ "user_id") (h2 : k ≠ "exp") (h3 : k ≠ "type") :
    (AuthHandler.extraClaims p).get k = p.get k := by
  induction p with
  | nil => rfl
  | cons hd tl ih =>
    obtain ⟨k1, v1⟩ := hd
    by_cases h : k1 = k
    · subst h
      simp [AuthHandler.extraClaims, List.filter_cons, h1, h2, h3, PyDict.get]
    · by_cases hq : k1 ≠ "user_id" ∧ k1 ≠ "exp" ∧ k1 ≠ "type" <;>
        simp [AuthHandler.extraClaims, List.filter_cons, hq, PyDict.get, h] <;>
        simpa [AuthHandler.extraClaims] using ih

theorem AuthHandler.extraClaims_keys_nodup (p : PyDict String JVal)
    (h : (PyDict.keys p).Nodup) :
    (PyDict.keys (AuthHandler.extraClaims p)).Nodup := by
  have hsub : List.Sublist (AuthHandler.extraClaims p) p := List.filter_sublist p
  exact h.sublist (hsub.map Prod.fst)

theorem AuthHandler.extraClaims_mem_keys (p : PyDict String JVal) (k : String)
    (h : k ∈ PyDict.keys (AuthHandler.extraClaims p)) :
    k ≠ "user_id" ∧ k ≠ "exp" ∧ k ≠ "type" := by
  simp only [PyDict.keys, List.mem_map] at h
  obtain ⟨⟨k1, v1⟩, hmem, hfst⟩ := h
  have := List.of_mem_filter hmem
  simp only [decide_eq_true_eq] at this
  exact hfst ▸ this

theorem AuthHandler.extraClaims_append (d e : PyDict String JVal) :
    AuthHandler.extraClaims (d ++ e) =
      AuthHandler.extraClaims d ++ AuthHandler.extraClaims e := by
  simp [AuthHandler.extraClaims]

theorem AuthHandler.extraClaims_idem (p : PyDict String JVal) :
    AuthHandler.extraClaims (AuthHandler.extraClaims p) =
      AuthHandler.extraClaims p := by
  induction p with
  | nil => rfl
  | cons hd tl ih =>
    obtain ⟨k1, v1⟩ := hd
    by_cases hq : k1 ≠ "user_id" ∧ k1 ≠ "exp" ∧ k1 ≠ "type"
    · simp_all [AuthHandler.extraClaims, List.filter_cons, hq]
    · simp_all [AuthHandler.extraClaims, List.filter_cons, hq]

/-- The new access token issued by `refresh_tokens` is the three base claims
followed by the carried-over extra claims. -/
theorem AuthHandler.create_access_token_payload (cfg : AuthConfig) (now : Int)
    (user_id : JVal) (p : PyDict String JVal)
    (hnodup : (PyDict.keys p).Nodup) :
    (AuthHandler.create_access_token cfg now user_id
        (AuthHandler.extraClaims p)).payload =
      [("user_id", user_id), ("exp", .i (now + cfg.access_expire)),
       ("type", .s "access")] ++ AuthHandler.extraClaims p := by
  refine PyDict.update_disjoint _ _ ?_ (AuthHandler.extraClaims_keys_nodup p hnodup)
  intro k hk
  obtain ⟨h1, h2, h3⟩ := AuthHandler.extraClaims_mem_keys p k hk
  simp [PyDict.get, Ne.symm h1, Ne.symm h2, Ne.symm h3]

theorem AuthHandler.create_access_token_key (cfg : AuthConfig) (now : Int)
    (user_id : JVal) (claims : PyDict String JVal) :
    (AuthHandler.create_access_token cfg now user_id claims).key =
      cfg.jwt_secret := rfl

/-- C3: for every valid un-expired refresh token, `refresh_tokens` succeeds,
and authenticating the freshly issued access token (within its own lifetime)
returns the same `user_id` and the same `is_admin` claim as the original
token, and the new access token carries exactly the original extra claims
(everything except `user_id`/`exp`/`type`). -/
theorem refresh_then_authenticate_roundtrip (cfg : AuthConfig) (tok : Token)
    (now now2 e : Int)
    (hkey : tok.key = cfg.jwt_secret)
    (hexp : tok.payload.get "exp" = some (.i e))
    (hfresh : now < e)
    (htype : tok.payload.getD "type" .null = .s "refresh")
    (hnodup : (PyDict.keys tok.payload).Nodup)
    (hfresh2 : now2 < now + cfg.access_expire) :
    ∃ pair : AuthHandler.TokenPair,
      AuthHandler.refresh_tokens cfg now tok = .ok pair
      ∧ AuthHandler.get_current_user cfg now2 pair.access_token =
          .ok ⟨tok.payload.getD "user_id" .null,
               tok.payload.getD "is_admin" (.b false)⟩
      ∧ AuthHandler.extraClaims pair.access_token.payload =
          AuthHandler.extraClaims tok.payload := by
  have hnle : ¬ (e ≤ now) := not_le.mpr hfresh
  have hdec : AuthHandler.decode_token cfg now tok = .ok tok.payload := by
    simp [AuthHandler.decode_token, hkey, hexp, hnle, htype]
  have hpay := AuthHandler.create_access_token_payload cfg now
    (tok.payload.getD "user_id" .null) tok.payload hnodup
  have hnle2 : ¬ (now + cfg.access_expire ≤ now2) := not_le.mpr hfresh2
  have hgetAdmin : (AuthHandler.extraClaims tok.payload).get "is_admin" =
      tok.payload.get "is_admin" :=
    AuthHandler.extraClaims_get tok.payload "is_admin"
      (by decide) (by decide) (by decide)
  refine ⟨⟨AuthHandler.create_access_token cfg now
            (tok.payload.getD "user_id" .null)
            (AuthHandler.extraClaims tok.payload),
          AuthHandler.create_refresh_token cfg now
            (tok.payload.getD "user_id" .null)
            (AuthHandler.extraClaims tok.payload)⟩, ?_, ?_, ?_⟩
  · simp [AuthHandler.refresh_tokens, hdec, htype]
  · have hkey2 := AuthHandler.create_access_token_key cfg now
      (tok.payload.getD "user_id" .null) (AuthHandler.extraClaims tok.payload)
    have hgexp : (AuthHandler.create_access_token cfg now
        (tok.payload.getD "user_id" .null)
        (AuthHandler.extraClaims tok.payload)).payload.get "exp"
        = some (.i (now + cfg.access_expire)) := by rw [hpay]; rfl
    have hgtype : (AuthHandler.create_access_token cfg now
        (tok.payload.getD "user_id" .null)
        (AuthHandler.extraClaims tok.payload)).payload.get "type"
        = some (.s "access") := by rw [hpay]; rfl
    have hguid : (AuthHandler.create_access_token cfg now
        (tok.payload.getD "user_id" .null)
        (AuthHandler.extraClaims tok.payload)).payload.get "user_id"
        = some (tok.payload.getD "user_id" .null) := by rw [hpay]; rfl
    have hgadmin : (AuthHandler.create_access_token cfg now
        (tok.payload.getD "user_id" .null)
        (AuthHandler.extraClaims tok.payload)).payload.get "is_admin"
        = tok.payload.get "is_admin" := by
      rw [hpay]
      show (AuthHandler.extraClaims tok.payload).get "is_admin" = _
      exact hgetAdmin
    simp only [PyDict.getD] at hkey2 hgexp hgtype hguid hgadmin
    simp [AuthHandler.get_current_user, AuthHandler.decode_token, PyDict.getD,
      hkey2, hgexp, hgtype, hguid, hgadmin, hnle2]
  · show AuthHandler.extraClaims
      (AuthHandler.create_access_token cfg now
        (tok.payload.getD "user_id" .null)
        (AuthHandler.extraClaims tok.payload)).payload =
      AuthHandler.extraClaims tok.payload
    rw [hpay, AuthHandler.extraClaims_append, AuthHandler.extraClaims_idem]
    rfl

/-- Witness for C3 at a concrete refresh token carrying extra claims. -/
theorem refresh_then_authenticate_roundtrip_witness :
    (50 : Int) < 100 ∧ (60 : Int) < 50 + 900 ∧
    (∃ pair : AuthHandler.TokenPair,
      AuthHandler.refresh_tokens ⟨"k", 900, 3600⟩ 50
        ⟨[("user_id", .s "u1"), ("exp", .i 100), ("type", .s "refresh"),
          ("is_admin", .b true), ("role", .s "dev")], "k"⟩ = .ok pair
      ∧ AuthHandler.get_current_user ⟨"k", 900, 3600⟩ 60 pair.access_token =
          .ok ⟨.s "u1", .b true⟩
      ∧ AuthHandler.extraClaims pair.access_token.payload =
          AuthHandler.extraClaims
            [("user_id", .s "u1"), ("exp", .i 100), ("type", .s "refresh"),
             ("is_admin", .b true), ("role", .s "dev")]) :=
  ⟨by decide, by decide,
   refresh_then_authenticate_roundtrip ⟨"k", 900, 3600⟩
     ⟨[("user_id", .s "u1"), ("exp", .i 100), ("type", .s "refresh"),
       ("is_admin", .b true), ("role", .s "dev")], "k"⟩ 50 60 100
     rfl (by decide) (by decide) (by decide) (by decide) (by decide)⟩

theorem PyDict.getD_set_self {κ : Type u} {α : Type v} [DecidableEq κ]
    (d : PyDict κ α) (k : κ) (v dflt : α) :
    (d.set k v).getD k dflt = v := by
  simp [PyDict.getD, PyDict.get_set_self]

/-- C1: sliding-window admission control, per channel.  When exactly the
configured limit of timestamps for a client fall inside the trailing window at
the time of the next check, that check is denied — a 429 on the HTTP channel,
`False` on the WebSocket channel — and the stored window is only pruned, with
no new timestamp appended.  Later, at any instant `now2` at which fewer than
the limit of the stored timestamps remain inside the trailing window, the
check is admitted again and appends `now2` (a sliding window, not a bucket
that resets). -/
theorem rate_limit_sliding_window (rl : RateLimiter) (c host : JVal)
    (now now2 : Int)
    (hc : c.truthy = true)
    (hHttp : (RateLimiter.pruneWindow rl.window now (rl.requests.getD c [])).length
      = rl.http_rate_limit)
    (hWs : (RateLimiter.pruneWindow rl.window now (rl.ws_messages.getD c [])).length
      = rl.ws_rate_limit) :
    RateLimiter.check_http_rate_limit rl c host now =
      (some 429, { rl with requests := (rl.requests.set c
        (RateLimiter.pruneWindow rl.window now (rl.requests.getD c []))) })
    ∧ RateLimiter.check_ws_rate_limit rl c host now =
      (false, { rl with ws_messages := (rl.ws_messages.set c
        (RateLimiter.pruneWindow rl.window now (rl.ws_messages.getD c []))) })
    ∧ ((RateLimiter.pruneWindow rl.window now2
          (RateLimiter.pruneWindow rl.window now (rl.requests.getD c []))).length
        < rl.http_rate_limit →
      RateLimiter.check_http_rate_limit
        { rl with requests := (rl.requests.set c
          (RateLimiter.pruneWindow rl.window now (rl.requests.getD c []))) }
        c host now2 =
      (none, { rl with requests :=
        ((rl.requests.set c
          (RateLimiter.pruneWindow rl.window now (rl.requests.getD c []))).set c
        (RateLimiter.pruneWindow rl.window now2
          (RateLimiter.pruneWindow rl.window now (rl.requests.getD c []))
          ++ [now2])) }))
    ∧ ((RateLimiter.pruneWindow rl.window now2
          (RateLimiter.pruneWindow rl.window now (rl.ws_messages.getD c []))).length
        < rl.ws_rate_limit →
      RateLimiter.check_ws_rate_limit
        { rl with ws_messages := (rl.ws_messages.set c
          (RateLimiter.pruneWindow rl.window now (rl.ws_messages.getD c []))) }
        c host now2 =
      (true, { rl with ws_messages :=
        ((rl.ws_messages.set c
          (RateLimiter.pruneWindow rl.window now (rl.ws_messages.getD c []))).set c
        (RateLimiter.pruneWindow rl.window now2
          (RateLimiter.pruneWindow rl.window now (rl.ws_messages.getD c []))
          ++ [now2])) })) := by
  refine ⟨?_, ?_, ?_, ?_⟩
  · simp [RateLimiter.check_http_rate_limit, hc, hHttp.ge]
  · simp [RateLimiter.check_ws_rate_limit, hc, hWs.ge]
  · intro hlt
    simp [RateLimiter.check_http_rate_limit, hc, PyDict.getD_set_self,
      not_le.mpr hlt]
  · intro hlt
    simp [RateLimiter.check_ws_rate_limit, hc, PyDict.getD_set_self,
      not_le.mpr hlt]

/-- Witness for C1: a client with 2 recorded timestamps against limit 2 is
denied at `now = 30` without an append, and admitted again at `now2 = 75`
once only one timestamp remains inside the 60-second window. -/
theorem rate_limit_sliding_window_witness :
    (JVal.s "c").truthy = true ∧
    (RateLimiter.pruneWindow 60 30 (PyDict.getD
      [((JVal.s "c"), [(10 : Int), 20])] (.s "c") [])).length = 2 ∧
    RateLimiter.check_http_rate_limit ⟨[(.s "c", [10, 20])], [(.s "c", [10, 20])], 2, 2, 60⟩
        (.s "c") .null 30 =
      (some 429, ⟨[(.s "c", [10, 20])], [(.s "c", [10, 20])], 2, 2, 60⟩) ∧
    RateLimiter.check_ws_rate_limit ⟨[(.s "c", [10, 20])], [(.s "c", [10, 20])], 2, 2, 60⟩
        (.s "c") .null 30 =
      (false, ⟨[(.s "c", [10, 20])], [(.s "c", [10, 20])], 2, 2, 60⟩) ∧
    RateLimiter.check_http_rate_limit ⟨[(.s "c", [10, 20])], [(.s "c", [10, 20])], 2, 2, 60⟩
        (.s "c") .null 75 =
      (none, ⟨[(.s "c", [20, 75])], [(.s "c", [10, 20])], 2, 2, 60⟩) := by
  have h := rate_limit_sliding_window
    ⟨[(.s "c", [10, 20])], [(.s "c", [10, 20])], 2, 2, 60⟩ (.s "c") .null 30 75
    (by decide) (by decide) (by decide)
  refine ⟨by decide, by decide, ?_, ?_, ?_⟩
  · exact h.1
  · exact h.2.1
  · exact h.2.2.1 (by decide)

/-- C8: `disconnect` is idempotent and total.  Disconnecting an unregistered
`(user_id, session_id)` — whether the user is absent or the session is — is a
no-op; a second consecutive `disconnect` of the same pair never changes the
registry further; and removing a user's last session removes the whole
`user_id` bucket from the mapping. -/
theorem streaming_disconnect_idempotent {α : Type u} (conns : ConnMap α)
    (u : JVal) (s : String) :
    (PyDict.get conns u = none → StreamingService.disconnect conns u s = conns)
    ∧ (∀ bucket, PyDict.get conns u = some bucket → bucket.hasKey s = false →
        StreamingService.disconnect conns u s = conns)
    ∧ StreamingService.disconnect (StreamingService.disconnect conns u s) u s =
        StreamingService.disconnect conns u s
    ∧ (∀ w : α, PyDict.get conns u = some [(s, w)] →
        PyDict.get (StreamingService.disconnect conns u s) u = none) := by
  refine ⟨?_, ?_, ?_, ?_⟩
  · intro h
    simp [StreamingService.disconnect, h]
  · intro bucket hb hk
    simp [StreamingService.disconnect, hb, hk]
  · cases hu : PyDict.get conns u with
    | none => simp [StreamingService.disconnect, hu]
    | some bucket =>
      by_cases hk : bucket.hasKey s
      · by_cases he : (bucket.remove s).isEmpty
        · simp only [StreamingService.disconnect, hu, hk, if_true, he]
          simp [StreamingService.disconnect, PyDict.get_remove_self]
        · simp only [StreamingService.disconnect, hu, hk, if_true, he,
            if_false, Bool.false_eq_true]
          simp [StreamingService.disconnect, PyDict.get_set_self,
            PyDict.hasKey, PyDict.get_remove_self]
      · simp [StreamingService.disconnect, hu, hk]
  · intro w hw
    have hkey : PyDict.hasKey [(s, w)] s = true := by
      simp [PyDict.hasKey, PyDict.get]
    have hrm : PyDict.remove [(s, w)] s = ([] : PyDict String α) := by
      simp [PyDict.remove]
    simp [StreamingService.disconnect, hw, hkey, hrm,
      PyDict.get_remove_self]

/-- Witness for C8: removing the last session drops the user bucket, a double
disconnect equals a single one, and disconnecting an absent user or session
changes nothing. -/
theorem streaming_disconnect_idempotent_witness :
    PyDict.get (StreamingService.disconnect (α := String)
      [(.s "u", [("s1", "w1")])] (.s "u") "s1") (.s "u") = none
    ∧ StreamingService.disconnect (α := String)
        (StreamingService.disconnect
          [(.s "u", [("s1", "w1"), ("s2", "w2")])] (.s "u") "s1")
        (.s "u") "s1" =
      StreamingService.disconnect
        [(.s "u", [("s1", "w1"), ("s2", "w2")])] (.s "u") "s1"
    ∧ StreamingService.disconnect (α := String)
        [(.s "u", [("s1", "w1")])] (.s "v") "s1" = [(.s "u", [("s1", "w1")])]
    ∧ StreamingService.disconnect (α := String)
        [(.s "u", [("s1", "w1")])] (.s "u") "s9" = [(.s "u", [("s1", "w1")])] :=
  ⟨(streaming_disconnect_idempotent [(.s "u", [("s1", "w1")])]
      (.s "u") "s1").2.2.2 "w1" rfl,
   (streaming_disconnect_idempotent [(.s "u", [("s1", "w1"), ("s2", "w2")])]
      (.s "u") "s1").2.2.1,
   (streaming_disconnect_idempotent [(.s "u", [("s1", "w1")])]
      (.s "v") "s1").1 (by decide),
   (streaming_disconnect_idempotent [(.s "u", [("s1", "w1")])]
      (.s "u") "s9").2.1 [("s1", "w1")] rfl (by decide)⟩

theorem StreamingService.broadcastLoop_spec {α : Type u}
    (exclude : Option String) (sendFails : α → Bool) :
    ∀ bucket : PyDict String α,
      (StreamingService.broadcastLoop exclude sendFails bucket).attempts =
        (bucket.filter
          (fun kv => !(StreamingService.skipSession exclude kv.1))).map Prod.fst
      ∧ (StreamingService.broadcastLoop exclude sendFails bucket).errorsLogged =
        ((bucket.filter
          (fun kv => !(StreamingService.skipSession exclude kv.1))).filter
            (fun kv => sendFails kv.2)).map Prod.fst := by
  intro bucket
  induction bucket with
  | nil => exact ⟨rfl, rfl⟩
  | cons hd tl ih =>
    obtain ⟨sid, w⟩ := hd
    by_cases hs : StreamingService.skipSession exclude sid
    · simpa [StreamingService.broadcastLoop, List.filter_cons, hs] using ih
    · by_cases hf : sendFails w
      · simp only [StreamingService.broadcastLoop, List.filter_cons] at ih ⊢
        simp [hs, hf, ih.1, ih.2]
      · simp only [StreamingService.broadcastLoop, List.filter_cons] at ih ⊢
        simp [hs, hf, ih.1, ih.2]

/-- C7: `broadcast_to_user` for a user with no registered connections returns
at once — no send attempts, no error logs, and (being a pure read of the
registry) no registry mutation; for a registered user it attempts a send to
every non-excluded session of the bucket, in order, regardless of which
individual sends fail, and the failing sends are exactly the ones logged. -/
theorem broadcast_to_user_isolation {α : Type u} (conns : ConnMap α)
    (u : JVal) (exclude : Option String) (sendFails : α → Bool) :
    (PyDict.get conns u = none →
      StreamingService.broadcast_to_user conns u exclude sendFails = ⟨[], []⟩)
    ∧ (∀ bucket, PyDict.get conns u = some bucket →
        (StreamingService.broadcast_to_user conns u exclude sendFails).attempts =
          (bucket.filter
            (fun kv => !(StreamingService.skipSession exclude kv.1))).map Prod.fst
        ∧ (StreamingService.broadcast_to_user conns u exclude sendFails).errorsLogged =
          ((bucket.filter
            (fun kv => !(StreamingService.skipSession exclude kv.1))).filter
              (fun kv => sendFails kv.2)).map Prod.fst
        ∧ ∀ sid w, (sid, w) ∈ bucket →
            StreamingService.skipSession exclude sid = false →
            sid ∈ (StreamingService.broadcast_to_user conns u exclude
              sendFails).attempts) := by
  constructor
  · intro h
    simp [StreamingService.broadcast_to_user, h]
  · intro bucket hb
    have hspec := StreamingService.broadcastLoop_spec exclude sendFails bucket
    have hbu : StreamingService.broadcast_to_user conns u exclude sendFails =
        StreamingService.broadcastLoop exclude sendFails bucket := by
      simp [StreamingService.broadcast_to_user, hb]
    refine ⟨hbu ▸ hspec.1, hbu ▸ hspec.2, ?_⟩
    intro sid w hmem hskip
    rw [hbu, hspec.1]
    refine List.mem_map.mpr ⟨(sid, w), ?_, rfl⟩
    exact List.mem_filter.mpr ⟨hmem, by simp [hskip]⟩

/-- Witness for C7: an unknown user is a silent no-op; with three sessions,
an excluded one and a failing one, the two non-excluded sends are both
attempted and exactly the failing one is logged. -/
theorem broadcast_to_user_isolation_witness :
    PyDict.get (α := PyDict String String)
      [(JVal.s "u", [("s1", "w1")])] (.s "nobody") = none
    ∧ StreamingService.broadcast_to_user (α := String)
        [(.s "u", [("s1", "w1")])] (.s "nobody") none (fun _ => false) = ⟨[], []⟩
    ∧ (StreamingService.broadcast_to_user (α := String)
        [(.s "u", [("s1", "w1"), ("s2", "w2"), ("s3", "w3")])] (.s "u")
        (some "s2") (fun w => w = "w1")).attempts = ["s1", "s3"]
    ∧ (StreamingService.broadcast_to_user (α := String)
        [(.s "u", [("s1", "w1"), ("s2", "w2"), ("s3", "w3")])] (.s "u")
        (some "s2") (fun w => w = "w1")).errorsLogged = ["s1"] := by
  refine ⟨by decide, ?_, ?_, ?_⟩
  · exact (broadcast_to_user_isolation [(.s "u", [("s1", "w1")])]
      (.s "nobody") none (fun _ => false)).1 (by decide)
  · exact ((broadcast_to_user_isolation
      [(.s "u", [("s1", "w1"), ("s2", "w2"), ("s3", "w3")])] (.s "u")
      (some "s2") (fun w => decide (w = "w1"))).2 _ rfl).1
  · exact ((broadcast_to_user_isolation
      [(.s "u", [("s1", "w1"), ("s2", "w2"), ("s3", "w3")])] (.s "u")
      (some "s2") (fun w => decide (w = "w1"))).2 _ rfl).2.1

/-- Closed form of an untroubled run of the chunk loop: starting at index `j`
it yields one envelope per remaining chunk and makes the matching
`memory_chunk` broadcast call for each. -/
theorem StreamingService.streamLoop_no_failure (u sid : String) (total : Nat) :
    ∀ (cs : List String) (j : Nat),
      StreamingService.streamLoop u sid total none j cs =
        ⟨List.zipWith (fun i c => StreamingService.mkChunkEnvelope sid i total c)
           (List.range' j cs.length) cs,
         List.zipWith (fun i c => (u, "memory_chunk",
           StreamingService.mkChunkEnvelope sid i total c))
           (List.range' j cs.length) cs⟩ := by
  intro cs
  induction cs with
  | nil => intro j; rfl
  | cons c rest ih =>
    intro j
    simp [StreamingService.streamLoop, List.range'_succ, ih (j + 1)]

theorem StreamingService.contentChunks_length (content : String) (k : Nat) :
    (StreamingService.contentChunks content k).length =
      (content.length + k - 1) / k := by
  simp [StreamingService.contentChunks]

theorem StreamingService.contentChunks_get (content : String) (k : Nat)
    (i : Nat) (hi : i < (StreamingService.contentChunks content k).length) :
    (StreamingService.contentChunks content k).get ⟨i, hi⟩ =
      StreamingService.pySlice content (i * k) k := by
  simp [StreamingService.contentChunks, List.get_eq_getElem, List.getElem_map,
    List.getElem_range]

theorem StreamingService.pySlice_length (content : String) (i k : Nat) :
    (StreamingService.pySlice content i k).length =
      min k (content.length - i) := by
  simp [StreamingService.pySlice]

theorem StreamingService.chunk_before_last_full (len k i : Nat) (hk : 0 < k)
    (h : i + 1 < (len + k - 1) / k) : (i + 1) * k < len := by
  have h2 : i + 2 ≤ (len + k - 1) / k := h
  have h3 : (i + 2) * k ≤ len + k - 1 := (Nat.le_div_iff_mul_le hk).mp h2
  have h4 : (i + 2) * k = (i + 1) * k + k := by ring
  omega

/-- C4: chunked streaming.  Concretely, `"abcdefghij"` with `chunk_size = 3`
yields exactly four envelopes, in order `"abc"`, `"def"`, `"ghi"`, `"j"`, with
`chunk_number` 1 through 4, `total_chunks = 4` in every envelope, and `done`
true only on the fourth.  In general (for any content and any nonzero chunk
size) the yielded envelopes are the 1-indexed chunks of the content in order,
and every chunk is the fixed-size slice `content[i*size : i*size+size]`, of
length exactly `chunk_size` except for a possibly shorter final slice. -/
theorem stream_chunks_fixed_slices (content : String) (chunk_size : Nat)
    (h : 0 < chunk_size) :
    (StreamingService.stream_memory_chunks "u1" "s1" "abcdefghij" 3 none).yielded =
      [⟨"s1_0", "abc", "memory_chunk", false, .chunk 1 4 "s1"⟩,
       ⟨"s1_1", "def", "memory_chunk", false, .chunk 2 4 "s1"⟩,
       ⟨"s1_2", "ghi", "memory_chunk", false, .chunk 3 4 "s1"⟩,
       ⟨"s1_3", "j", "memory_chunk", true, .chunk 4 4 "s1"⟩]
    ∧ (∀ u sid : String,
      (StreamingService.stream_memory_chunks u sid content chunk_size none).yielded =
        List.zipWith
          (fun j c => StreamingService.mkChunkEnvelope sid j
            (StreamingService.contentChunks content chunk_size).length c)
          (List.range (StreamingService.contentChunks content chunk_size).length)
          (StreamingService.contentChunks content chunk_size))
    ∧ (∀ i, ∀ hi : i < (StreamingService.contentChunks content chunk_size).length,
        (StreamingService.contentChunks content chunk_size).get ⟨i, hi⟩ =
          StreamingService.pySlice content (i * chunk_size) chunk_size
        ∧ ((StreamingService.contentChunks content chunk_size).get ⟨i, hi⟩).length
            ≤ chunk_size
        ∧ (i + 1 < (StreamingService.contentChunks content chunk_size).length →
          ((StreamingService.contentChunks content chunk_size).get ⟨i, hi⟩).length
            = chunk_size)) := by
  refine ⟨by decide, ?_, ?_⟩
  · intro u sid
    simp only [StreamingService.stream_memory_chunks, h.ne', if_false]
    rw [StreamingService.streamLoop_no_failure,
      ← List.range_eq_range' (StreamingService.contentChunks content chunk_size).length]
  · intro i hi
    have hget := StreamingService.contentChunks_get content chunk_size i hi
    have hlen := StreamingService.pySlice_length content (i * chunk_size) chunk_size
    refine ⟨hget, ?_, ?_⟩
    · rw [hget, hlen]
      exact Nat.min_le_left _ _
    · intro hfull
      rw [StreamingService.contentChunks_length] at hfull
      have hbound := StreamingService.chunk_before_last_full content.length
        chunk_size i h hfull
      rw [hget, hlen]
      have : (i + 1) * chunk_size = i * chunk_size + chunk_size := by ring
      omega

/-- Witness for C4: the general theorem applied at `"abcdefghij"` with
chunk size 3 yields the four concrete envelopes. -/
theorem stream_chunks_fixed_slices_witness :
    0 < 3 ∧
    (StreamingService.stream_memory_chunks "u1" "s1" "abcdefghij" 3 none).yielded =
      [⟨"s1_0", "abc", "memory_chunk", false, .chunk 1 4 "s1"⟩,
       ⟨"s1_1", "def", "memory_chunk", false, .chunk 2 4 "s1"⟩,
       ⟨"s1_2", "ghi", "memory_chunk", false, .chunk 3 4 "s1"⟩,
       ⟨"s1_3", "j", "memory_chunk", true, .chunk 4 4 "s1"⟩] :=
  ⟨by decide, (stream_chunks_fixed_slices "abcdefghij" 3 (by decide)).1⟩

/-- C10 (amended): for empty content and every nonzero chunk size the stream
yields no envelope at all and makes no broadcast call, whatever the failure
oracle; the claim's "regardless of chunk_size" fails only at `chunk_size = 0`,
where Python's `range(0, 0, 0)` raises and one error envelope is emitted. -/
theorem stream_chunks_empty_content (u sid : String) (chunk_size : Nat)
    (h : 0 < chunk_size) (failAt : Option StreamFailure) :
    StreamingService.stream_memory_chunks u sid "" chunk_size failAt =
      ⟨[], []⟩ := by
  have hchunks : StreamingService.contentChunks "" chunk_size = [] := by
    have hz : (chunk_size - 1) / chunk_size = 0 := Nat.div_eq_of_lt (by omega)
    simp [StreamingService.contentChunks, hz]
  simp only [StreamingService.stream_memory_chunks, h.ne', if_false, hchunks]
  cases failAt <;> rfl

/-- Witness for C10's amended statement at chunk size 3. -/
theorem stream_chunks_empty_content_witness :
    0 < 3 ∧
    StreamingService.stream_memory_chunks "u1" "s1" "" 3 none = ⟨[], []⟩ :=
  ⟨by decide, stream_chunks_empty_content "u1" "s1" 3 (by decide) none⟩

/-- Counterexample to C10 as stated: with `chunk_size = 0` the chunk-list
comprehension raises `ValueError` inside the `try`, and the `except` branch
yields exactly one error envelope for the empty content — not zero
envelopes. -/
theorem stream_chunks_empty_content_counterexample :
    (StreamingService.stream_memory_chunks "u1" "s1" "" 0 none).yielded.length = 1
    ∧ (StreamingService.stream_memory_chunks "u1" "s1" "" 0 none).yielded ≠ []
    ∧ (StreamingService.stream_memory_chunks "u1" "s1" "" 0 none).yielded =
        [StreamingService.mkErrorEnvelope "s1" "range() arg 3 must not be zero"] := by
  refine ⟨rfl, ?_, rfl⟩
  decide

/-- How many extra chunk envelopes precede the error envelope relative to the
failing index: a failure during the broadcast of chunk `idx` strikes before
chunk `idx` is yielded; a failure after the yield (in the inter-chunk pause)
strikes after it. -/
def StreamingService.phaseExtra : FailPhase → Nat
  | .duringBroadcast => 0
  | .afterYield => 1

/-- Closed form of a run of the chunk loop that fails at chunk `idx`: the
chunks before the failure point are yielded and broadcast normally, then one
error envelope is yielded and broadcast, and the loop ends. -/
theorem StreamingService.streamLoop_failure (u sid : String) (total : Nat)
    (idx : Nat) (ph : FailPhase) (msg : String) :
    ∀ (cs : List String) (j : Nat), j ≤ idx → idx - j < cs.length →
      StreamingService.streamLoop u sid total (some ⟨idx, ph, msg⟩) j cs =
        ⟨List.zipWith (fun i c => StreamingService.mkChunkEnvelope sid i total c)
            (List.range' j (idx - j + StreamingService.phaseExtra ph))
            (cs.take (idx - j + StreamingService.phaseExtra ph))
          ++ [StreamingService.mkErrorEnvelope sid msg],
         List.zipWith (fun i c => (u, "memory_chunk",
             StreamingService.mkChunkEnvelope sid i total c))
            (List.range' j (idx - j + StreamingService.phaseExtra ph))
            (cs.take (idx - j + StreamingService.phaseExtra ph))
          ++ [(u, "memory_error", StreamingService.mkErrorEnvelope sid msg)]⟩ := by
  intro cs
  induction cs with
  | nil =>
    intro j h1 h2
    simp at h2
  | cons c rest ih =>
    intro j h1 h2
    by_cases hj : idx = j
    · subst hj
      cases ph with
      | duringBroadcast =>
        simp [StreamingService.streamLoop, StreamingService.phaseExtra]
      | afterYield =>
        simp [StreamingService.streamLoop, StreamingService.phaseExtra,
          List.range'_succ]
    · have hj1 : j + 1 ≤ idx := by omega
      have hlt : idx - (j + 1) < rest.length := by
        simp only [List.length_cons] at h2
        omega
      have hrec := ih (j + 1) hj1 hlt
      have hm : idx - j + StreamingService.phaseExtra ph =
          (idx - (j + 1) + StreamingService.phaseExtra ph) + 1 := by
        cases ph <;> simp [StreamingService.phaseExtra] <;> omega
      rw [hm, List.range'_succ, List.take_succ_cons]
      simp [StreamingService.streamLoop, hj, hrec]

theorem StreamingService.zip_chunks_type (sid : String) (total : Nat) :
    ∀ (js : List Nat) (cs : List String) (env : ChunkEnvelope),
      env ∈ List.zipWith
        (fun i c => StreamingService.mkChunkEnvelope sid i total c) js cs →
      env.type = "memory_chunk" := by
  intro js
  induction js with
  | nil => intro cs env hmem; simp at hmem
  | cons j js ih =>
    intro cs env hmem
    cases cs with
    | nil => simp at hmem
    | cons c cs =>
      simp only [List.zipWith_cons_cons, List.mem_cons] at hmem
      rcases hmem with hmem | hmem
      · rw [hmem]; rfl
      · exact ih cs env hmem

/-- C5: a failure while producing or delivering chunk `idx` (either inside
the chunk's broadcast or after its yield) terminates the stream with exactly
one `error`-tagged envelope with `done = true`, delivered on both the
broadcast path (as a final `memory_error` call) and the yield path (as the
final yielded envelope), after which nothing further is yielded or
broadcast. -/
theorem stream_chunks_error_terminal (u sid content : String)
    (chunk_size : Nat) (f : StreamFailure) (h : 0 < chunk_size)
    (hidx : f.idx < (StreamingService.contentChunks content chunk_size).length) :
    ∃ normals : List ChunkEnvelope,
      (StreamingService.stream_memory_chunks u sid content chunk_size
          (some f)).yielded =
        normals ++ [StreamingService.mkErrorEnvelope sid f.msg]
      ∧ (StreamingService.stream_memory_chunks u sid content chunk_size
          (some f)).broadcasts =
        normals.map (fun env => (u, "memory_chunk", env))
          ++ [(u, "memory_error", StreamingService.mkErrorEnvelope sid f.msg)]
      ∧ (∀ env ∈ normals, env.type = "memory_chunk")
      ∧ (StreamingService.mkErrorEnvelope sid f.msg).type = "error"
      ∧ (StreamingService.mkErrorEnvelope sid f.msg).done = true
      ∧ ((StreamingService.stream_memory_chunks u sid content chunk_size
          (some f)).yielded.filter
            (fun env => env.type == "error")).length = 1
      ∧ (StreamingService.stream_memory_chunks u sid content chunk_size
          (some f)).yielded.getLast? =
          some (StreamingService.mkErrorEnvelope sid f.msg) := by
  obtain ⟨idx, ph, msg⟩ := f
  have hfail := StreamingService.streamLoop_failure u sid
    (StreamingService.contentChunks content chunk_size).length idx ph msg
    (StreamingService.contentChunks content chunk_size) 0 (Nat.zero_le _)
    (by simpa using hidx)
  have hrun : StreamingService.stream_memory_chunks u sid content chunk_size
      (some ⟨idx, ph, msg⟩) =
      StreamingService.streamLoop u sid
        (StreamingService.contentChunks content chunk_size).length
        (some ⟨idx, ph, msg⟩) 0
        (StreamingService.contentChunks content chunk_size) := by
    simp [StreamingService.stream_memory_chunks, h.ne']
  refine ⟨List.zipWith
      (fun i c => StreamingService.mkChunkEnvelope sid i
        (StreamingService.contentChunks content chunk_size).length c)
      (List.range' 0 (idx - 0 + StreamingService.phaseExtra ph))
      ((StreamingService.contentChunks content chunk_size).take
        (idx - 0 + StreamingService.phaseExtra ph)),
    ?_, ?_, ?_, rfl, rfl, ?_, ?_⟩
  · rw [hrun, hfail]
  · rw [hrun, hfail, List.map_zipWith]
  · intro env hmem
    exact StreamingService.zip_chunks_type sid _ _ _ env hmem
  · rw [hrun, hfail]
    simp only [List.filter_append]
    have hnil : (List.zipWith
        (fun i c => StreamingService.mkChunkEnvelope sid i
          (StreamingService.contentChunks content chunk_size).length c)
        (List.range' 0 (idx - 0 + StreamingService.phaseExtra ph))
        ((StreamingService.contentChunks content chunk_size).take
          (idx - 0 + StreamingService.phaseExtra ph))).filter
        (fun env => env.type == "error") = [] := by
      refine List.filter_eq_nil_iff.mpr ?_
      intro env hmem
      have := StreamingService.zip_chunks_type sid _ _ _ env hmem
      simp [this]
    rw [hnil]
    rfl
  · rw [hrun, hfail]
    exact List.getLast?_concat _

/-- Witness for C5: streaming `"abcdef"` in chunks of 3 with a failure inside
the broadcast of chunk index 1 yields the first chunk and then the single
terminal error envelope on both paths. -/
theorem stream_chunks_error_terminal_witness :
    0 < 3 ∧
    (1 : Nat) < (StreamingService.contentChunks "abcdef" 3).length ∧
    (∃ normals : List ChunkEnvelope,
      (StreamingService.stream_memory_chunks "u1" "s1" "abcdef" 3
          (some ⟨1, .duringBroadcast, "boom"⟩)).yielded =
        normals ++ [StreamingService.mkErrorEnvelope "s1" "boom"]
      ∧ (StreamingService.stream_memory_chunks "u1" "s1" "abcdef" 3
          (some ⟨1, .duringBroadcast, "boom"⟩)).broadcasts =
        normals.map (fun env => ("u1", "memory_chunk", env))
          ++ [("u1", "memory_error", StreamingService.mkErrorEnvelope "s1" "boom")]
      ∧ (∀ env ∈ normals, env.type = "memory_chunk")
      ∧ (StreamingService.mkErrorEnvelope "s1" "boom").type = "error"
      ∧ (StreamingService.mkErrorEnvelope "s1" "boom").done = true
      ∧ ((StreamingService.stream_memory_chunks "u1" "s1" "abcdef" 3
          (some ⟨1, .duringBroadcast, "boom"⟩)).yielded.filter
            (fun env => env.type == "error")).length = 1
      ∧ (StreamingService.stream_memory_chunks "u1" "s1" "abcdef" 3
          (some ⟨1, .duringBroadcast, "boom"⟩)).yielded.getLast? =
          some (StreamingService.mkErrorEnvelope "s1" "boom")) :=
  ⟨by decide, by decide,
   stream_chunks_error_terminal "u1" "s1" "abcdef" 3
     ⟨1, .duringBroadcast, "boom"⟩ (by decide) (by decide)⟩

/-- Counterexample to C9 as stated: the memory relay's `handle_ping` computes
`timestamp or now`, so a sender-provided but falsy timestamp — here the empty
string — is replaced by the current time instead of being echoed verbatim. -/
theorem relay_ping_echo_counterexample :
    WebSocketHandler.handle_messages "T0" "s1"
      [⟨.s "ping", none, .s ""⟩] =
      [.send (.pongData (.s "T0"))]
    ∧ JVal.s "T0" ≠ JVal.s "" := by decide

/-- C9 (amended): on a `ping`, the memory relay (`handle_messages` /
`handle_ping`) replies with a pong carrying the sender timestamp whenever that
timestamp is truthy, and the current time instead when it is missing or falsy
(Python `timestamp or now`); the stream relay (`stream_memory_updates`)
echoes the sender's timestamp field verbatim.  A message with any tag other
than `memory_update`/`ping` is logged-and-skipped by the memory relay and
silently skipped (no log emitted) by the stream relay — neither replies nor
raises — and each loop then continues with the remaining messages. -/
theorem relay_ping_pong_amended (nowTs session_id : String) (m : WsMessage)
    (hping : m.type = .s "ping") :
    (m.timestamp.truthy = true →
      WebSocketHandler.handle_messages nowTs session_id [m] =
        [.send (.pongData m.timestamp)])
    ∧ (m.timestamp.truthy = false →
      WebSocketHandler.handle_messages nowTs session_id [m] =
        [.send (.pongData (.s nowTs))])
    ∧ WebSocketHandler.stream_memory_updates nowTs session_id [m] =
        [.send (.pongTop m.timestamp)]
    ∧ (∀ m2 : WsMessage, m2.type ≠ .s "memory_update" → m2.type ≠ .s "ping" →
        WebSocketHandler.handle_messages nowTs session_id [m2] =
          [.logWarning m2.type]
        ∧ WebSocketHandler.stream_memory_updates nowTs session_id [m2] = [])
    ∧ (∀ (m2 : WsMessage) (rest : List WsMessage),
        WebSocketHandler.handle_messages nowTs session_id (m2 :: rest) =
          WebSocketHandler.handleOneMessage nowTs session_id m2
            ++ WebSocketHandler.handle_messages nowTs session_id rest) := by
  refine ⟨?_, ?_, ?_, ?_, ?_⟩
  · intro ht
    simp [WebSocketHandler.handle_messages, WebSocketHandler.handleOneMessage,
      hping, ht]
  · intro ht
    simp [WebSocketHandler.handle_messages, WebSocketHandler.handleOneMessage,
      hping, ht]
  · simp [WebSocketHandler.stream_memory_updates,
      WebSocketHandler.streamOneMessage, hping]
  · intro m2 h1 h2
    constructor
    · simp [WebSocketHandler.handle_messages, WebSocketHandler.handleOneMessage,
        h1, h2]
    · simp [WebSocketHandler.stream_memory_updates,
        WebSocketHandler.streamOneMessage, h1, h2]
  · intro m2 rest
    simp [WebSocketHandler.handle_messages]

/-- Witness for C9's amended statement: a truthy timestamp is echoed, the
stream relay echoes even the empty one verbatim, and an unknown tag is logged
on one path and silently skipped on the other. -/
theorem relay_ping_pong_amended_witness :
    JVal.truthy (.s "X") = true ∧
    WebSocketHandler.handle_messages "T0" "s1" [⟨.s "ping", none, .s "X"⟩] =
      [.send (.pongData (.s "X"))] ∧
    WebSocketHandler.stream_memory_updates "T0" "s1"
      [⟨.s "ping", none, .s ""⟩] = [.send (.pongTop (.s ""))] ∧
    WebSocketHandler.handle_messages "T0" "s1" [⟨.s "bogus", none, .null⟩] =
      [.logWarning (.s "bogus")] ∧
    WebSocketHandler.stream_memory_updates "T0" "s1"
      [⟨.s "bogus", none, .null⟩] = [] :=
  ⟨by decide,
   (relay_ping_pong_amended "T0" "s1" ⟨.s "ping", none, .s "X"⟩ rfl).1
     (by decide),
   (relay_ping_pong_amended "T0" "s1" ⟨.s "ping", none, .s ""⟩ rfl).2.2.1,
   ((relay_ping_pong_amended "T0" "s1" ⟨.s "ping", none, .null⟩ rfl).2.2.2.1
     ⟨.s "bogus", none, .null⟩ (by decide) (by decide)).1,
   ((relay_ping_pong_amended "T0" "s1" ⟨.s "ping", none, .null⟩ rfl).2.2.2.1
     ⟨.s "bogus", none, .null⟩ (by decide) (by decide)).2⟩

/-- C6: a WebSocket connection attempt whose token fails to decode — an
expired token in particular — is rejected inside `get_websocket_user`, the
route's `except` closes the socket with 1011, and the execution performs no
registration at all: the ConnectionRegistry is returned untouched and the
list of `(user_id, session_id)` registrations made is empty. -/
theorem ws_decode_failure_no_registration {α : Type u} (cfg : AuthConfig)
    (now : Int) (nowTs : String) (rl : RateLimiter) (conns : ConnMap α)
    (websocket : α) (host : JVal) (session_id : String) (tok : Token)
    (msgs : List WsMessage) (err : AuthError)
    (hdecode : AuthHandler.decode_token cfg now tok = .error err) :
    memory_websocket cfg now nowTs rl conns websocket host session_id
      (some tok) msgs = ⟨conns, rl, [], [], .internalError⟩ := by
  simp [memory_websocket, AuthHandler.get_websocket_user, hdecode]

/-- Witness for C6: an access token that expired at 100 presented at 200 is
refused and the registry (one live unrelated connection) is unchanged. -/
theorem ws_decode_failure_no_registration_witness :
    AuthHandler.decode_token ⟨"k", 900, 3600⟩ 200
      ⟨[("user_id", .s "u1"), ("exp", .i 100), ("type", .s "access")], "k"⟩
      = .error .expired
    ∧ memory_websocket (α := String) ⟨"k", 900, 3600⟩ 200 "T0"
        RateLimiter.init [(.s "v", [("s9", "w9")])] "w1" (.s "h") "s1"
        (some ⟨[("user_id", .s "u1"), ("exp", .i 100), ("type", .s "access")],
          "k"⟩) []
      = ⟨[(.s "v", [("s9", "w9")])], RateLimiter.init, [], [],
          .internalError⟩ :=
  ⟨rfl,
   ws_decode_failure_no_registration ⟨"k", 900, 3600⟩ 200 "T0"
     RateLimiter.init [(.s "v", [("s9", "w9")])] "w1" (.s "h") "s1"
     ⟨[("user_id", .s "u1"), ("exp", .i 100), ("type", .s "access")], "k"⟩
     [] .expired rfl⟩
